import Mathlib

/-!
Verification of the declaration-model edition layer (`src/types_edition.rs`)
of the venial repository.

The operations under verification live in `src/types_edition.rs`. The data
types they operate on (`GenericParam`, `StructFields`, `WhereClause`, ...)
are declared in the crate module `types.rs`, which is not part of the source
tree given here; those shapes are modelled from the specification, section 3
(data model), and from how `types_edition.rs` uses them. Token primitives
(`Ident`, `Punct`, `Literal`, `Group`, spans) come from the external
proc-macro2 crate and are modelled as opaque value records, per the
specification, which treats them as opaque copyable payload.
-/

/-- Source-position metadata. The specification treats spans as opaque
payload that is never semantically inspected, so we model a span as the
one-element type. -/
def Span : Type := Unit

instance : DecidableEq Span := fun _ _ => isTrue rfl

/-- The distinguished span used when synthesizing fresh tokens
(proc-macro2 call-site span), modelled opaquely. -/
def Span.callSite : Span := ()

/-- Spacing of a punctuation token (proc-macro2 `Spacing`). -/
inductive Spacing : Type where
  | alone : Spacing
  | joint : Spacing

/-- A punctuation token (proc-macro2 `Punct`): a character plus spacing. -/
structure Punct : Type where
  char : Char
  spacing : Spacing

/-- `Punct::new(ch, spacing)` from proc-macro2, modelled as the evident
record constructor. -/
def Punct.new (c : Char) (s : Spacing) : Punct := ⟨c, s⟩

/-- An identifier token (proc-macro2 `Ident`): its text and a span. -/
structure Ident : Type where
  str : String
  span : Span

/-- `Ident::new(string, span)` from proc-macro2. In the external crate this
validates the identifier text; the specification consumes token primitives
opaquely, so it is modelled as the total record constructor. -/
def Ident.new (s : String) (sp : Span) : Ident := ⟨s, sp⟩

/-- A literal token (proc-macro2 `Literal`), modelled by its text. -/
structure Literal : Type where
  text : String

/-- `Literal::usize_unsuffixed(i)` from proc-macro2: an unsuffixed integer
literal token whose text is the decimal rendering of `i`. -/
def Literal.usize_unsuffixed (i : Nat) : Literal := ⟨toString i⟩

/-- Delimiter kind of a token group (proc-macro2 `Delimiter`). -/
inductive Delimiter : Type where
  | parenthesis : Delimiter
  | brace : Delimiter
  | bracket : Delimiter
  | invisible : Delimiter

/-- A token tree (proc-macro2 `TokenTree`): a delimited group, an
identifier, a punctuation mark, or a literal. -/
inductive TokenTree : Type where
  | group (delimiter : Delimiter) (stream : List TokenTree) : TokenTree
  | ident (i : Ident) : TokenTree
  | punct (p : Punct) : TokenTree
  | lit (l : Literal) : TokenTree

/-- A token stream is an ordered sequence of token trees. -/
abbrev TokenStream : Type := List TokenTree

/-- From `types.rs` (not under `src/`). Modelled from the spec: an
ordered, punctuation-separated sequence; each element is stored with the
punctuation (if any) that follows it. -/
structure Punctuated (α : Type) : Type where
  inner : List (α × Option Punct)

/-- Modelled from the spec: append an element (with optional trailing
punctuation) at the end of the sequence. -/
def Punctuated.push {α : Type} (ps : Punctuated α) (x : α) (p : Option Punct) :
    Punctuated α :=
  ⟨ps.inner ++ [(x, p)]⟩

/-- Modelled from the spec: insert an element at the given position. -/
def Punctuated.insert {α : Type} (ps : Punctuated α) (n : Nat) (x : α)
    (p : Option Punct) : Punctuated α :=
  ⟨ps.inner.insertIdx n (x, p)⟩

/-- Modelled from the spec: the items of the sequence, in order, without
their separating punctuation. -/
def Punctuated.items {α : Type} (ps : Punctuated α) : List α :=
  ps.inner.map Prod.fst

/-- Modelled from the spec: the number of items. -/
def Punctuated.len {α : Type} (ps : Punctuated α) : Nat :=
  ps.inner.length

/-- Modelled from the spec: the empty punctuated sequence (the `Default`
of `types.rs`). -/
def Punctuated.default {α : Type} : Punctuated α := ⟨[]⟩

/-- An attribute attached to a declaration or field, modelled opaquely by
its token sequence (`types.rs`, modelled from the spec). -/
structure Attribute : Type where
  tokens : List TokenTree

/-- A visibility marker, modelled opaquely by its token sequence
(`types.rs`, modelled from the spec). -/
structure VisMarker : Type where
  tokens : List TokenTree

/-- A type expression: an opaque token sequence (`types.rs`, modelled from
the spec). -/
structure TyExpr : Type where
  tokens : List TokenTree

/-- Span and delimiter of a group token (`GroupSpan` of `types.rs`,
modelled from the spec). -/
structure GroupSpan : Type where
  span : Span
  delimiter : Delimiter

/-- An unnamed, position-indexed field (`types.rs`, modelled from the
spec: type expression plus attributes, order significant). -/
structure TupleField : Type where
  attributes : List Attribute
  vis_marker : Option VisMarker
  ty : TyExpr

/-- A named field (`types.rs`, modelled from the spec). -/
structure NamedField : Type where
  attributes : List Attribute
  vis_marker : Option VisMarker
  name : Ident
  ty : TyExpr

/-- The payload of `StructFields::Tuple` (`types.rs`, modelled from the
spec): ordered unnamed fields plus the span of the parentheses. -/
structure TupleStructFields : Type where
  fields : Punctuated TupleField
  tk_parens : GroupSpan

/-- The payload of `StructFields::Named` (`types.rs`, modelled from the
spec): ordered named fields plus the span of the braces. -/
structure NamedStructFields : Type where
  fields : Punctuated NamedField
  tk_braces : GroupSpan

/-- The three field shapes of a struct or enum variant (`types.rs`,
modelled from the spec): no fields, unnamed fields, or named fields. -/
inductive StructFields : Type where
  | unit : StructFields
  | tuple (fields : TupleStructFields) : StructFields
  | named (fields : NamedStructFields) : StructFields

/-- A bound: the colon token and the bound tokens after it (`types.rs`,
modelled from the spec). -/
structure GenericBound : Type where
  tk_colon : Punct
  tokens : List TokenTree

/-- A generic parameter (`types.rs`, modelled from the spec): an optional
prefix marker token (the field `tk_prefix` of the source), a name, and an
optional bound. -/
structure GenericParam : Type where
  tkPrefix : Option TokenTree
  name : Ident
  bound : Option GenericBound

/-- A generic-parameter list (`types.rs`, modelled from the spec): the
angle-bracket tokens and the ordered comma-separated parameters. -/
structure GenericParams : Type where
  tk_l_bracket : Punct
  params : Punctuated GenericParam
  tk_r_bracket : Punct

/-- The `Default` of `GenericParams` (`types.rs`, modelled from the spec):
empty parameter list with fresh angle-bracket tokens. -/
def GenericParams.default : GenericParams :=
  ⟨Punct.new '<' Spacing.alone, Punctuated.default, Punct.new '>' Spacing.alone⟩

/-- A where-clause item (`types.rs`, modelled from the spec): a left-hand
token sequence and a bound. -/
structure WhereClauseItem : Type where
  left_side : List TokenTree
  bound : GenericBound

/-- A where-clause (`types.rs`, modelled from the spec): the `where`
keyword token and the ordered comma-separated items. -/
structure WhereClause : Type where
  tk_where : Ident
  items : Punctuated WhereClauseItem

/-- The `Default` of `WhereClause` (`types.rs`, modelled from the spec):
empty item list with a fresh `where` keyword token. -/
def WhereClause.default : WhereClause :=
  ⟨Ident.new "where" Span.callSite, Punctuated.default⟩

/-- An enum-variant discriminant, modelled opaquely by its token sequence
(`types.rs`, modelled from the spec). -/
structure EnumDiscriminant : Type where
  tokens : List TokenTree

/-- An enum variant (`types.rs`, modelled from the spec): name, contents
(a `StructFields`), optional discriminant, attributes. -/
structure EnumVariant : Type where
  attributes : List Attribute
  vis_marker : Option VisMarker
  name : Ident
  contents : StructFields
  discriminant : Option EnumDiscriminant

/-- A struct declaration (`types.rs`, modelled from the spec): shared
header (attributes, visibility, name, optional generics, optional
where-clause) plus its fields. -/
structure Struct : Type where
  attributes : List Attribute
  vis_marker : Option VisMarker
  name : Ident
  generic_params : Option GenericParams
  where_clause : Option WhereClause
  fields : StructFields

/-- An enum declaration (`types.rs`, modelled from the spec): shared
header plus the ordered variant sequence. -/
structure Enum : Type where
  attributes : List Attribute
  vis_marker : Option VisMarker
  name : Ident
  generic_params : Option GenericParams
  where_clause : Option WhereClause
  variants : Punctuated EnumVariant

/-- A union declaration (`types.rs`, modelled from the spec): shared
header plus named fields. -/
structure UnionDecl : Type where
  attributes : List Attribute
  vis_marker : Option VisMarker
  name : Ident
  generic_params : Option GenericParams
  where_clause : Option WhereClause
  fields : NamedStructFields

/-! ## Operations of `src/types_edition.rs` -/

/-- The quote character U+0027, the prefix marker of a lifetime
parameter. -/
def quoteChar : Char := Char.ofNat 39

/-- `Struct::field_names` (`types_edition.rs`, lines 114-127): Unit gives
no names, Tuple gives the stringified indices, Named gives the field-name
strings. -/
def Struct.field_names (s : Struct) : List String :=
  match s.fields with
  | StructFields.unit => []
  | StructFields.tuple tuple_fields =>
      (List.range tuple_fields.fields.len).map (fun i => toString i)
  | StructFields.named named_fields =>
      named_fields.fields.items.map (fun field => field.name.str)

/-- `Struct::field_tokens` (`types_edition.rs`, lines 133-146): Unit gives
no tokens, Tuple gives unsuffixed integer-literal tokens, Named gives
clones of the name tokens. -/
def Struct.field_tokens (s : Struct) : List TokenTree :=
  match s.fields with
  | StructFields.unit => []
  | StructFields.tuple tuple_fields =>
      (List.range tuple_fields.fields.len).map
        (fun i => TokenTree.lit (Literal.usize_unsuffixed i))
  | StructFields.named named_fields =>
      named_fields.fields.items.map (fun field => TokenTree.ident field.name)

/-- `Struct::field_types` (`types_edition.rs`, lines 149-159): the type
expression of each field, in order. -/
def Struct.field_types (s : Struct) : List TyExpr :=
  match s.fields with
  | StructFields.unit => []
  | StructFields.tuple tuple_fields =>
      tuple_fields.fields.items.map (fun field => field.ty)
  | StructFields.named named_fields =>
      named_fields.fields.items.map (fun field => field.ty)

/-- `EnumVariant::is_empty_variant` (`types_edition.rs`, lines 275-277):
true when the contents are `StructFields::Unit`. -/
def EnumVariant.is_empty_variant (v : EnumVariant) : Bool :=
  match v.contents with
  | StructFields.unit => true
  | _ => false

/-- `Enum::is_c_enum` (`types_edition.rs`, lines 174-181): the source loop
returns false at the first non-empty variant and true otherwise, which is
`List.all` over the variants. -/
def Enum.is_c_enum (e : Enum) : Bool :=
  e.variants.items.all (fun variant => variant.is_empty_variant)

/-- `EnumVariant::get_single_type` (`types_edition.rs`, lines 281-288):
the sole field when the contents are a one-field tuple, absent
otherwise. -/
def EnumVariant.get_single_type (v : EnumVariant) : Option TupleField :=
  match v.contents with
  | StructFields.tuple fields =>
      match fields.fields.inner with
      | [(f, _)] => some f
      | _ => none
  | StructFields.unit => none
  | StructFields.named _ => none

/-- `GenericParam::is_lifetime` (`types_edition.rs`, lines 402-407): true
when the prefix marker is a quote punctuation token. -/
def GenericParam.is_lifetime (p : GenericParam) : Bool :=
  match p.tkPrefix with
  | some (TokenTree.punct punct) => punct.char == quoteChar
  | _ => false

/-- `GenericParam::is_ty` (`types_edition.rs`, lines 410-416): true when
the prefix marker is absent. -/
def GenericParam.is_ty (p : GenericParam) : Bool :=
  match p.tkPrefix with
  | some _ => false
  | none => true

/-- `GenericParam::is_const` (`types_edition.rs`, lines 419-424): true
when the prefix marker is the identifier `const`. -/
def GenericParam.is_const (p : GenericParam) : Bool :=
  match p.tkPrefix with
  | some (TokenTree.ident ident) => ident.str == "const"
  | _ => false

/-- `GenericParams::with_param` (`types_edition.rs`, lines 294-301):
lifetimes are inserted at position 0, every other parameter is appended. -/
def GenericParams.with_param (gp : GenericParams) (param : GenericParam) :
    GenericParams :=
  if param.is_lifetime then
    { gp with params := gp.params.insert 0 param none }
  else
    { gp with params := gp.params.push param none }

/-- `WhereClause::with_item` (`types_edition.rs`, lines 434-437): append
an item. -/
def WhereClause.with_item (wc : WhereClause) (item : WhereClauseItem) :
    WhereClause :=
  { wc with items := wc.items.push item none }

/-- `WhereClause::from_item` (`types_edition.rs`, lines 429-431): a
where-clause with a single item. -/
def WhereClause.from_item (item : WhereClauseItem) : WhereClause :=
  WhereClause.default.with_item item

/-- `GenericParam::lifetime` (`types_edition.rs`, lines 316-323). -/
def GenericParam.lifetime (name : String) : GenericParam :=
  let lifetime_ident := Ident.new name Span.callSite
  { tkPrefix := some (TokenTree.punct (Punct.new quoteChar Spacing.joint)),
    name := lifetime_ident,
    bound := none }

/-- `GenericParam::bounded_lifetime` (`types_edition.rs`, lines 333-343). -/
def GenericParam.bounded_lifetime (name : String) (bound : List TokenTree) :
    GenericParam :=
  let lifetime_ident := Ident.new name Span.callSite
  { tkPrefix := some (TokenTree.punct (Punct.new quoteChar Spacing.alone)),
    name := lifetime_ident,
    bound := some { tk_colon := Punct.new ':' Spacing.alone, tokens := bound } }

/-- `GenericParam::ty` (`types_edition.rs`, lines 352-359). -/
def GenericParam.ty (name : String) : GenericParam :=
  let ty_ident := Ident.new name Span.callSite
  { tkPrefix := none, name := ty_ident, bound := none }

/-- `GenericParam::bounded_ty` (`types_edition.rs`, lines 369-379). -/
def GenericParam.bounded_ty (name : String) (bound : List TokenTree) :
    GenericParam :=
  let ty_ident := Ident.new name Span.callSite
  { tkPrefix := none,
    name := ty_ident,
    bound := some { tk_colon := Punct.new ':' Spacing.alone, tokens := bound } }

/-- `GenericParam::const_param` (`types_edition.rs`, lines 389-399). -/
def GenericParam.const_param (name : String) (ty : List TokenTree) :
    GenericParam :=
  let lifetime_ident := Ident.new name Span.callSite
  { tkPrefix := some (TokenTree.ident (Ident.new "const" Span.callSite)),
    name := lifetime_ident,
    bound := some { tk_colon := Punct.new ':' Spacing.alone, tokens := ty } }

/-- `Struct::with_param`, generated by `implement_type_setters!`
(`types_edition.rs`, lines 189-194): take the generic-parameter list or a
default empty one, add the parameter, store the result back. -/
def Struct.with_param (s : Struct) (param : GenericParam) : Struct :=
  let params := s.generic_params.getD GenericParams.default
  { s with generic_params := some (params.with_param param) }

/-- `Enum::with_param` (`types_edition.rs`, lines 189-194, second macro
instantiation). -/
def Enum.with_param (e : Enum) (param : GenericParam) : Enum :=
  let params := e.generic_params.getD GenericParams.default
  { e with generic_params := some (params.with_param param) }

/-- `Union::with_param` (`types_edition.rs`, lines 189-194, third macro
instantiation). -/
def UnionDecl.with_param (u : UnionDecl) (param : GenericParam) : UnionDecl :=
  let params := u.generic_params.getD GenericParams.default
  { u with generic_params := some (params.with_param param) }

/-- `Struct::get_type_params` (`types_edition.rs`, lines 218-229): the
parameters of the declaration (empty if the list is absent) filtered by
`is_ty`, in order. The source returns a lazy iterator; we model the list
of items it yields. -/
def Struct.get_type_params (s : Struct) : List GenericParam :=
  (match s.generic_params with
   | some params => params.params.inner
   | none => []).map Prod.fst |>.filter (fun param => param.is_ty)

/-- `Struct::get_lifetime_params` (`types_edition.rs`, lines 205-216). -/
def Struct.get_lifetime_params (s : Struct) : List GenericParam :=
  (match s.generic_params with
   | some params => params.params.inner
   | none => []).map Prod.fst |>.filter (fun param => param.is_lifetime)

/-- `Struct::get_const_params` (`types_edition.rs`, lines 231-242). -/
def Struct.get_const_params (s : Struct) : List GenericParam :=
  (match s.generic_params with
   | some params => params.params.inner
   | none => []).map Prod.fst |>.filter (fun param => param.is_const)

/-- `Enum::get_type_params` (`types_edition.rs`, lines 218-229, second
macro instantiation). -/
def Enum.get_type_params (e : Enum) : List GenericParam :=
  (match e.generic_params with
   | some params => params.params.inner
   | none => []).map Prod.fst |>.filter (fun param => param.is_ty)

/-- `Union::get_type_params` (`types_edition.rs`, lines 218-229, third
macro instantiation). -/
def UnionDecl.get_type_params (u : UnionDecl) : List GenericParam :=
  (match u.generic_params with
   | some params => params.params.inner
   | none => []).map Prod.fst |>.filter (fun param => param.is_ty)

/-- The where-clause item built for one type parameter inside
`create_derive_where_clause` (`types_edition.rs`, lines 252-258): the
left side is the parameter name token, the bound is a fresh colon plus
the derived-trait tokens. -/
def deriveItem (param : GenericParam) (derived_trait : TokenStream) :
    WhereClauseItem :=
  { left_side := [TokenTree.ident param.name],
    bound := { tk_colon := Punct.new ':' Spacing.alone,
               tokens := derived_trait } }

/-- `Struct::create_derive_where_clause` (`types_edition.rs`, lines
248-264): start from the existing where-clause (or a default empty one)
and append one item per type parameter. -/
def Struct.create_derive_where_clause (s : Struct)
    (derived_trait : TokenStream) : WhereClause :=
  s.get_type_params.foldl
    (fun where_clause param =>
      where_clause.with_item (deriveItem param derived_trait))
    (s.where_clause.getD WhereClause.default)

/-- `Enum::create_derive_where_clause` (`types_edition.rs`, lines 248-264,
second macro instantiation). -/
def Enum.create_derive_where_clause (e : Enum)
    (derived_trait : TokenStream) : WhereClause :=
  e.get_type_params.foldl
    (fun where_clause param =>
      where_clause.with_item (deriveItem param derived_trait))
    (e.where_clause.getD WhereClause.default)

/-- `Union::create_derive_where_clause` (`types_edition.rs`, lines
248-264, third macro instantiation). -/
def UnionDecl.create_derive_where_clause (u : UnionDecl)
    (derived_trait : TokenStream) : WhereClause :=
  u.get_type_params.foldl
    (fun where_clause param =>
      where_clause.with_item (deriveItem param derived_trait))
    (u.where_clause.getD WhereClause.default)

/-- Whether a token is a top-level colon punctuation token: the predicate
passed to `consume_stuff_until` by `WhereClauseItem::parse`
(`types_edition.rs`, lines 449-452). A colon nested inside a group is a
single `TokenTree.group` at this level and does not satisfy it. -/
def isTopLevelColon (token : TokenTree) : Bool :=
  match token with
  | TokenTree.punct punct => punct.char == ':'
  | _ => false

/-- Modelled from the spec: `crate::parse::consume_stuff_until` lives in
`parse.rs`, which is not under `src/`. Per the specification, section 4.5,
the parse helper splits the token sequence at the first top-level token
satisfying the predicate: it consumes and returns every token before that
point, leaving the rest (beginning with the matching token, if any) in the
iterator. -/
def consume_stuff_until (pred : TokenTree → Bool) (tokens : List TokenTree) :
    List TokenTree × List TokenTree :=
  (tokens.takeWhile (fun t => !pred t), tokens.dropWhile (fun t => !pred t))

/-- `WhereClauseItem::parse` (`types_edition.rs`, lines 446-468): consume
everything before the first top-level colon as the left side, then demand
the colon (`.next().unwrap()` and the panicking match in the source; both
fatal stops are modelled as `none`), and take the remaining tokens as the
bound. -/
def WhereClauseItem.parse (tokens : TokenStream) : Option WhereClauseItem :=
  let split := consume_stuff_until isTopLevelColon tokens
  match split.2 with
  | TokenTree.punct punct :: bound_tokens =>
      if punct.char == ':' then
        some { left_side := split.1,
               bound := { tk_colon := punct, tokens := bound_tokens } }
      else none
  | _ => none

/-! ## Concrete example values used by witnesses -/

/-- An opaque example type expression. -/
def exTy : TyExpr := ⟨[TokenTree.ident (Ident.new "Foo" Span.callSite)]⟩

/-- An example group span. -/
def exParens : GroupSpan := ⟨Span.callSite, Delimiter.parenthesis⟩

/-- An example unnamed field. -/
def exTupleField : TupleField := ⟨[], none, exTy⟩

/-- An example named field with the given name. -/
def exNamedField (n : String) : NamedField :=
  ⟨[], none, Ident.new n Span.callSite, exTy⟩

/-- A tuple struct with two fields and no generics or where-clause. -/
def exTupleStruct : Struct :=
  { attributes := [], vis_marker := none,
    name := Ident.new "Hello" Span.callSite,
    generic_params := none, where_clause := none,
    fields := StructFields.tuple
      ⟨⟨[(exTupleField, none), (exTupleField, none)]⟩, exParens⟩ }

/-- A named struct with fields `a` and `b`. -/
def exNamedStruct : Struct :=
  { attributes := [], vis_marker := none,
    name := Ident.new "Hello" Span.callSite,
    generic_params := none, where_clause := none,
    fields := StructFields.named
      ⟨⟨[(exNamedField "a", none), (exNamedField "b", none)]⟩,
       ⟨Span.callSite, Delimiter.brace⟩⟩ }

/-- An enum variant with no payload. -/
def exUnitVariant : EnumVariant :=
  ⟨[], none, Ident.new "A" Span.callSite, StructFields.unit, none⟩

/-- An enum variant wrapping a single unnamed field. -/
def exNewtypeVariant : EnumVariant :=
  ⟨[], none, Ident.new "B" Span.callSite,
   StructFields.tuple ⟨⟨[(exTupleField, none)]⟩, exParens⟩, none⟩

/-- A C-like enum with two empty variants. -/
def exCEnum : Enum :=
  { attributes := [], vis_marker := none,
    name := Ident.new "MyEnum" Span.callSite,
    generic_params := none, where_clause := none,
    variants := ⟨[(exUnitVariant, none), (exUnitVariant, none)]⟩ }

/-- A generic parameter whose prefix marker is neither absent, nor a
quote, nor the `const` keyword. -/
def exBadParam : GenericParam :=
  { tkPrefix := some (TokenTree.ident (Ident.new "mut" Span.callSite)),
    name := Ident.new "T" Span.callSite,
    bound := none }

/-! ## Theorems -/

/-- C1, counterexample: the generic parameter whose prefix marker is the
identifier `mut` is classified by none of `is_lifetime`, `is_ty`,
`is_const`, so it is not the case that exactly one of the three holds for
every `GenericParam` value. -/
theorem genericParam_exactly_one_fails :
    exBadParam.is_lifetime = false ∧ exBadParam.is_ty = false ∧
      exBadParam.is_const = false := by
  refine ⟨rfl, rfl, ?_⟩
  decide

/-- C1, amended: the prefix marker determines the classification
(`is_ty` iff the marker is absent, `is_lifetime` iff it is a quote
punctuation token, `is_const` iff it is the identifier `const`), and the
three classes are mutually exclusive; exactly one class holds precisely
when the marker has one of those three shapes, and a parameter with any
other marker is in no class. -/
theorem genericParam_class_by_marker (p : GenericParam) :
    (p.is_ty = true ↔ p.tkPrefix = none)
  ∧ (p.is_lifetime = true ↔
      ∃ punct, p.tkPrefix = some (TokenTree.punct punct) ∧
        punct.char = quoteChar)
  ∧ (p.is_const = true ↔
      ∃ ident, p.tkPrefix = some (TokenTree.ident ident) ∧
        ident.str = "const")
  ∧ ¬(p.is_lifetime = true ∧ p.is_ty = true)
  ∧ ¬(p.is_lifetime = true ∧ p.is_const = true)
  ∧ ¬(p.is_ty = true ∧ p.is_const = true) := by
  obtain ⟨pre, name, bound⟩ := p
  cases pre with
  | none =>
      simp [GenericParam.is_lifetime, GenericParam.is_ty,
        GenericParam.is_const]
  | some t =>
      cases t <;>
        simp [GenericParam.is_lifetime, GenericParam.is_ty,
          GenericParam.is_const, beq_iff_eq]

/-- C1, witness: the amended theorem applied to the parameter with the
quote marker built by `GenericParam.lifetime`. -/
theorem genericParam_class_by_marker_witness :
    (GenericParam.lifetime "a").is_lifetime = true := by
  have h := genericParam_class_by_marker (GenericParam.lifetime "a")
  exact h.2.1.mpr ⟨Punct.new quoteChar Spacing.joint, rfl, rfl⟩

/-- C9: the five parameter constructors are total functions of their
inputs; for every name and bound they return a `GenericParam` carrying
the given name, the documented prefix marker (so the documented
classification holds), and the given bound. -/
theorem genericParam_constructors_spec (name : String)
    (bound ty : List TokenTree) :
    (GenericParam.lifetime name).is_lifetime = true
  ∧ (GenericParam.lifetime name).name.str = name
  ∧ (GenericParam.lifetime name).bound = none
  ∧ (GenericParam.bounded_lifetime name bound).is_lifetime = true
  ∧ (GenericParam.bounded_lifetime name bound).name.str = name
  ∧ (GenericParam.bounded_lifetime name bound).bound =
      some { tk_colon := Punct.new ':' Spacing.alone, tokens := bound }
  ∧ (GenericParam.ty name).is_ty = true
  ∧ (GenericParam.ty name).name.str = name
  ∧ (GenericParam.ty name).bound = none
  ∧ (GenericParam.bounded_ty name bound).is_ty = true
  ∧ (GenericParam.bounded_ty name bound).name.str = name
  ∧ (GenericParam.bounded_ty name bound).bound =
      some { tk_colon := Punct.new ':' Spacing.alone, tokens := bound }
  ∧ (GenericParam.const_param name ty).is_const = true
  ∧ (GenericParam.const_param name ty).name.str = name
  ∧ (GenericParam.const_param name ty).bound =
      some { tk_colon := Punct.new ':' Spacing.alone, tokens := ty } := by
  refine ⟨?_, rfl, rfl, ?_, rfl, rfl, rfl, rfl, rfl, rfl, rfl, rfl, ?_,
    rfl, rfl⟩ <;> rfl

/-- Adding a lifetime parameter puts it in front of the items. -/
lemma with_param_items_of_lifetime (gp : GenericParams) (p : GenericParam)
    (h : p.is_lifetime = true) :
    (gp.with_param p).params.items = p :: gp.params.items := by
  simp [GenericParams.with_param, h, Punctuated.insert, Punctuated.items,
    List.insertIdx_zero]

/-- Adding a non-lifetime parameter appends it to the items. -/
lemma with_param_items_of_non_lifetime (gp : GenericParams) (p : GenericParam)
    (h : p.is_lifetime = false) :
    (gp.with_param p).params.items = gp.params.items ++ [p] := by
  simp [GenericParams.with_param, h, Punctuated.push, Punctuated.items]

/-- A sequence of non-lifetime insertions appends the parameters in call
order. -/
lemma foldl_with_param_all_non_lifetime (ps : List GenericParam) :
    ∀ gp : GenericParams, (∀ q ∈ ps, q.is_lifetime = false) →
      (ps.foldl GenericParams.with_param gp).params.items =
        gp.params.items ++ ps := by
  induction ps with
  | nil => intro gp _; simp
  | cons q rest ih =>
      intro gp h
      rw [List.foldl_cons,
        ih (gp.with_param q) (fun x hx => h x (List.mem_cons_of_mem q hx)),
        with_param_items_of_non_lifetime gp q (h q (List.mem_cons_self q rest))]
      simp

/-- A sequence of lifetime insertions prepends the parameters, so they
end up in reverse call order. -/
lemma foldl_with_param_all_lifetime (ps : List GenericParam) :
    ∀ gp : GenericParams, (∀ q ∈ ps, q.is_lifetime = true) →
      (ps.foldl GenericParams.with_param gp).params.items =
        ps.reverse ++ gp.params.items := by
  induction ps with
  | nil => intro gp _; simp
  | cons q rest ih =>
      intro gp h
      rw [List.foldl_cons,
        ih (gp.with_param q) (fun x hx => h x (List.mem_cons_of_mem q hx)),
        with_param_items_of_lifetime gp q (h q (List.mem_cons_self q rest))]
      simp

/-- C2, counterexample: inserting the lifetimes `a` then `b` yields the
items in the order `b`, `a` — not the call order `a`, `b` — so repeated
same-class insertion does not preserve relative order for lifetimes. -/
theorem with_param_lifetime_order_reversed :
    ((GenericParams.default.with_param (GenericParam.lifetime "a")).with_param
        (GenericParam.lifetime "b")).params.items =
      [GenericParam.lifetime "b", GenericParam.lifetime "a"] ∧
    ((GenericParams.default.with_param (GenericParam.lifetime "a")).with_param
        (GenericParam.lifetime "b")).params.items ≠
      [GenericParam.lifetime "a", GenericParam.lifetime "b"] := by
  constructor
  · rfl
  · intro h
    have h2 : ("b" : String) = "a" :=
      congrArg (fun l => ((l.headD exBadParam).name.str)) h
    exact absurd h2 (by decide)

/-- C2, amended: `with_param` inserts a lifetime at position 0 and
appends any other parameter; a sequence of insertions all of non-lifetime
class preserves the call order, while a sequence of lifetime insertions
produces the reverse of the call order (each lifetime is placed in front
of the previously inserted ones). -/
theorem with_param_insertion_spec (gp : GenericParams) (p : GenericParam)
    (ps : List GenericParam) :
    (p.is_lifetime = true →
      (gp.with_param p).params.items = p :: gp.params.items)
  ∧ (p.is_lifetime = false →
      (gp.with_param p).params.items = gp.params.items ++ [p])
  ∧ ((∀ q ∈ ps, q.is_lifetime = false) →
      (ps.foldl GenericParams.with_param gp).params.items =
        gp.params.items ++ ps)
  ∧ ((∀ q ∈ ps, q.is_lifetime = true) →
      (ps.foldl GenericParams.with_param gp).params.items =
        ps.reverse ++ gp.params.items) :=
  ⟨with_param_items_of_lifetime gp p,
   with_param_items_of_non_lifetime gp p,
   foldl_with_param_all_non_lifetime ps gp,
   foldl_with_param_all_lifetime ps gp⟩

/-- C2, witness: the amended theorem applied to two type parameters
(appended in call order) and to one lifetime (prepended). -/
theorem with_param_insertion_spec_witness :
    ([GenericParam.ty "T", GenericParam.ty "U"].foldl
        GenericParams.with_param GenericParams.default).params.items =
      [GenericParam.ty "T", GenericParam.ty "U"] ∧
    (GenericParams.default.with_param (GenericParam.lifetime "a")).params.items
      = [GenericParam.lifetime "a"] := by
  constructor
  · have h := (with_param_insertion_spec GenericParams.default
      (GenericParam.ty "T") [GenericParam.ty "T", GenericParam.ty "U"]).2.2.1
    have h2 := h (by decide)
    simpa [GenericParams.default, Punctuated.default, Punctuated.items]
      using h2
  · have h := (with_param_insertion_spec GenericParams.default
      (GenericParam.lifetime "a") []).1
    simpa [GenericParams.default, Punctuated.default, Punctuated.items]
      using h rfl

/-- Folding `with_item` over a parameter list appends the corresponding
items in order. -/
lemma foldl_with_item_items (f : GenericParam → WhereClauseItem)
    (ps : List GenericParam) :
    ∀ wc : WhereClause,
      (ps.foldl (fun w p => w.with_item (f p)) wc).items.items =
        wc.items.items ++ ps.map f := by
  induction ps with
  | nil => intro wc; simp
  | cons q rest ih =>
      intro wc
      rw [List.foldl_cons, ih (wc.with_item (f q))]
      simp [WhereClause.with_item, Punctuated.push, Punctuated.items]

/-- C3: for Struct, Enum and Union declarations,
`create_derive_where_clause` returns a where-clause whose items are the
pre-existing items (none when the clause is absent) first, unchanged,
followed by exactly one item per type parameter in declaration order,
whose left side is the parameter name token and whose bound is a colon
paired with the derived-trait tokens. -/
theorem create_derive_where_clause_spec (dt : TokenStream) :
    (∀ s : Struct,
      (s.create_derive_where_clause dt).items.items =
        (match s.where_clause with
         | some wc => wc.items.items
         | none => []) ++
        s.get_type_params.map (fun param =>
          ({ left_side := [TokenTree.ident param.name],
             bound := { tk_colon := Punct.new ':' Spacing.alone,
                        tokens := dt } } : WhereClauseItem)))
  ∧ (∀ e : Enum,
      (e.create_derive_where_clause dt).items.items =
        (match e.where_clause with
         | some wc => wc.items.items
         | none => []) ++
        e.get_type_params.map (fun param =>
          ({ left_side := [TokenTree.ident param.name],
             bound := { tk_colon := Punct.new ':' Spacing.alone,
                        tokens := dt } } : WhereClauseItem)))
  ∧ (∀ u : UnionDecl,
      (u.create_derive_where_clause dt).items.items =
        (match u.where_clause with
         | some wc => wc.items.items
         | none => []) ++
        u.get_type_params.map (fun param =>
          ({ left_side := [TokenTree.ident param.name],
             bound := { tk_colon := Punct.new ':' Spacing.alone,
                        tokens := dt } } : WhereClauseItem))) := by
  refine ⟨fun s => ?_, fun e => ?_, fun u => ?_⟩
  · have key : (s.create_derive_where_clause dt).items.items =
        (s.where_clause.getD WhereClause.default).items.items ++
          s.get_type_params.map (fun p => deriveItem p dt) :=
      foldl_with_item_items (fun p => deriveItem p dt) s.get_type_params
        (s.where_clause.getD WhereClause.default)
    rw [key]
    cases s.where_clause <;>
      simp [deriveItem, WhereClause.default, Punctuated.default,
        Punctuated.items]
  · have key : (e.create_derive_where_clause dt).items.items =
        (e.where_clause.getD WhereClause.default).items.items ++
          e.get_type_params.map (fun p => deriveItem p dt) :=
      foldl_with_item_items (fun p => deriveItem p dt) e.get_type_params
        (e.where_clause.getD WhereClause.default)
    rw [key]
    cases e.where_clause <;>
      simp [deriveItem, WhereClause.default, Punctuated.default,
        Punctuated.items]
  · have key : (u.create_derive_where_clause dt).items.items =
        (u.where_clause.getD WhereClause.default).items.items ++
          u.get_type_params.map (fun p => deriveItem p dt) :=
      foldl_with_item_items (fun p => deriveItem p dt) u.get_type_params
        (u.where_clause.getD WhereClause.default)
    rw [key]
    cases u.where_clause <;>
      simp [deriveItem, WhereClause.default, Punctuated.default,
        Punctuated.items]

/-- C6: `is_c_enum` is true exactly when every variant is an empty
variant, and an enum with no variants is a C enum. -/
theorem enum_is_c_enum_spec (e : Enum) :
    (e.is_c_enum = true ↔
      ∀ v ∈ e.variants.items, v.is_empty_variant = true)
  ∧ (e.variants.items = [] → e.is_c_enum = true) := by
  constructor
  · simp [Enum.is_c_enum, List.all_eq_true]
  · intro h
    simp [Enum.is_c_enum, h]

/-- C6, witness: the enum with two empty variants is a C enum, by the
theorem. -/
theorem enum_is_c_enum_spec_witness : exCEnum.is_c_enum = true := by
  have h := (enum_is_c_enum_spec exCEnum).1
  exact h.mpr (by decide)

/-- C7: `get_single_type` returns a value exactly when the variant
contents are a tuple with exactly one field, and in that case it returns
that field. -/
theorem enumVariant_get_single_type_spec (v : EnumVariant) :
    ((v.get_single_type).isSome = true ↔
      ∃ tf, v.contents = StructFields.tuple tf ∧ tf.fields.len = 1)
  ∧ (∀ tf f p, v.contents = StructFields.tuple tf →
      tf.fields.inner = [(f, p)] → v.get_single_type = some f) := by
  obtain ⟨attrs, vm, nm, contents, disc⟩ := v
  constructor
  · cases contents with
    | unit => simp [EnumVariant.get_single_type]
    | named nf => simp [EnumVariant.get_single_type]
    | tuple tf =>
        obtain ⟨⟨inner⟩, par⟩ := tf
        rcases inner with _ | ⟨⟨f, pc⟩, inner2⟩
        · simp [EnumVariant.get_single_type, Punctuated.len]
        · rcases inner2 with _ | ⟨y, rest⟩
          · simp [EnumVariant.get_single_type, Punctuated.len]
          · simp [EnumVariant.get_single_type, Punctuated.len]
  · intro tf f p hc hin
    subst hc
    obtain ⟨⟨inner⟩, par⟩ := tf
    subst hin
    rfl

/-- C7, witness: the theorem applied to the newtype variant with one
tuple field. -/
theorem enumVariant_get_single_type_spec_witness :
    exNewtypeVariant.get_single_type = some exTupleField ∧
    (exNewtypeVariant.get_single_type).isSome = true := by
  have h := enumVariant_get_single_type_spec exNewtypeVariant
  refine ⟨h.2 ⟨⟨[(exTupleField, none)]⟩, exParens⟩ exTupleField none rfl rfl, ?_⟩
  exact h.1.mpr ⟨⟨⟨[(exTupleField, none)]⟩, exParens⟩, rfl, rfl⟩

/-- C10: for Struct, Enum and Union, `with_param` on a declaration with
no generic-parameter list produces a present list containing exactly the
given parameter, and `with_param` always leaves the list present. -/
theorem with_param_generic_params_present :
    (∀ (s : Struct) (p : GenericParam), s.generic_params = none →
      (s.with_param p).generic_params.map (fun gp => gp.params.items) =
        some [p])
  ∧ (∀ (s : Struct) (p : GenericParam),
      ((s.with_param p).generic_params).isSome = true)
  ∧ (∀ (e : Enum) (p : GenericParam), e.generic_params = none →
      (e.with_param p).generic_params.map (fun gp => gp.params.items) =
        some [p])
  ∧ (∀ (e : Enum) (p : GenericParam),
      ((e.with_param p).generic_params).isSome = true)
  ∧ (∀ (u : UnionDecl) (p : GenericParam), u.generic_params = none →
      (u.with_param p).generic_params.map (fun gp => gp.params.items) =
        some [p])
  ∧ (∀ (u : UnionDecl) (p : GenericParam),
      ((u.with_param p).generic_params).isSome = true) := by
  refine ⟨fun s p h => ?_, fun s p => ?_, fun e p h => ?_, fun e p => ?_,
    fun u p h => ?_, fun u p => ?_⟩ <;>
  first
  | (cases hp : p.is_lifetime <;>
      simp [Struct.with_param, Enum.with_param, UnionDecl.with_param, h,
        GenericParams.with_param, hp, GenericParams.default,
        Punctuated.default, Punctuated.insert, Punctuated.push,
        Punctuated.items, List.insertIdx_zero])
  | simp [Struct.with_param, Enum.with_param, UnionDecl.with_param]

/-- C10, witness: the theorem applied to the example tuple struct, which
has no generic parameters. -/
theorem with_param_generic_params_present_witness :
    (exTupleStruct.with_param (GenericParam.ty "T")).generic_params.map
      (fun gp => gp.params.items) = some [GenericParam.ty "T"] := by
  exact with_param_generic_params_present.1 exTupleStruct
    (GenericParam.ty "T") rfl

/-- C4: `field_names` of a unit struct is empty; of a tuple struct it is
the stringified indices 0..N-1 in order; of a named struct it is the
field-name strings in source order. -/
theorem struct_field_names_spec (s : Struct) :
    (s.fields = StructFields.unit → s.field_names = [])
  ∧ (∀ tf, s.fields = StructFields.tuple tf →
      s.field_names.length = tf.fields.len ∧
      ∀ i, i < tf.fields.len → s.field_names[i]? = some (toString i))
  ∧ (∀ nf, s.fields = StructFields.named nf →
      s.field_names = nf.fields.items.map (fun f => f.name.str)) := by
  obtain ⟨attrs, vm, nm, gps, wc, fields⟩ := s
  refine ⟨?_, ?_, ?_⟩
  · intro h
    subst h
    rfl
  · intro tf h
    subst h
    constructor
    · simp [Struct.field_names, Punctuated.len]
    · intro i hi
      simp [Struct.field_names, List.getElem?_map, List.getElem?_range,
        Punctuated.len] at hi ⊢
      simp [hi]
  · intro nf h
    subst h
    rfl

/-- C4, witness: the theorem applied to the example tuple struct with two
fields. -/
theorem struct_field_names_spec_witness :
    exTupleStruct.field_names.length = 2 ∧
    exTupleStruct.field_names[1]? = some "1" := by
  have h := (struct_field_names_spec exTupleStruct).2.1
    ⟨⟨[(exTupleField, none), (exTupleField, none)]⟩, exParens⟩ rfl
  exact ⟨h.1, h.2 1 (by decide)⟩

/-- The three field enumerations of a struct describe the same field at
index `i`: the name is the stringified index (tuple) or the field name
(named), the token is the synthesized integer literal (tuple) or the name
token (named), and the type is that field's type expression. -/
def FieldAligned (s : Struct) (i : Nat) : Prop :=
  match s.fields with
  | StructFields.unit => True
  | StructFields.tuple tf =>
      s.field_names[i]? = some (toString i) ∧
      s.field_tokens[i]? = some (TokenTree.lit (Literal.usize_unsuffixed i)) ∧
      s.field_types[i]? = (tf.fields.items[i]?).map (fun f => f.ty)
  | StructFields.named nf =>
      s.field_names[i]? = (nf.fields.items[i]?).map (fun f => f.name.str) ∧
      s.field_tokens[i]? =
        (nf.fields.items[i]?).map (fun f => TokenTree.ident f.name) ∧
      s.field_types[i]? = (nf.fields.items[i]?).map (fun f => f.ty)

/-- C5: `field_names`, `field_tokens` and `field_types` have equal
lengths, and at every index below that length the three enumerations
describe the same field. -/
theorem struct_field_enumerations_aligned (s : Struct) :
    s.field_names.length = s.field_types.length ∧
    s.field_tokens.length = s.field_types.length ∧
    ∀ i, i < s.field_types.length → FieldAligned s i := by
  obtain ⟨attrs, vm, nm, gps, wc, fields⟩ := s
  cases fields with
  | unit => exact ⟨rfl, rfl, fun _ _ => True.intro⟩
  | tuple tf =>
      refine ⟨?_, ?_, ?_⟩
      · simp [Struct.field_names, Struct.field_types, Punctuated.items,
          Punctuated.len]
      · simp [Struct.field_tokens, Struct.field_types, Punctuated.items,
          Punctuated.len]
      · intro i hi
        have hi2 : i < tf.fields.inner.length := by
          simpa [Struct.field_types, Punctuated.items] using hi
        refine ⟨?_, ?_, ?_⟩
        · simp [Struct.field_names, List.getElem?_map, List.getElem?_range,
            Punctuated.len, hi2]
        · simp [Struct.field_tokens, List.getElem?_map, List.getElem?_range,
            Punctuated.len, hi2]
        · simp [Struct.field_types, Punctuated.items, List.getElem?_map]
  | named nf =>
      refine ⟨?_, ?_, ?_⟩
      · simp [Struct.field_names, Struct.field_types, Punctuated.items]
      · simp [Struct.field_tokens, Struct.field_types, Punctuated.items]
      · intro i hi
        refine ⟨?_, ?_, ?_⟩ <;>
          simp [Struct.field_names, Struct.field_tokens, Struct.field_types,
            Punctuated.items, List.getElem?_map]

/-- C5, witness: the theorem applied to the example named struct, at
index 0. -/
theorem struct_field_enumerations_aligned_witness :
    exNamedStruct.field_names.length = exNamedStruct.field_types.length ∧
    FieldAligned exNamedStruct 0 := by
  have h := struct_field_enumerations_aligned exNamedStruct
  exact ⟨h.1, h.2.2 0 (by decide)⟩

/-- Splitting a list whose prefix satisfies the predicate at the first
failing element: `takeWhile` returns the prefix and `dropWhile` returns
the rest starting at that element. -/
lemma takeWhile_dropWhile_middle {α : Type} (q : α → Bool) (c : α)
    (hc : q c = false) :
    ∀ (before after : List α), (∀ t ∈ before, q t = true) →
      (before ++ c :: after).takeWhile q = before ∧
      (before ++ c :: after).dropWhile q = c :: after := by
  intro before
  induction before with
  | nil =>
      intro after _
      simp [List.takeWhile_cons, List.dropWhile_cons, hc]
  | cons t rest ih =>
      intro after h
      have ht := h t (List.mem_cons_self t rest)
      have hrest := ih after (fun x hx => h x (List.mem_cons_of_mem t hx))
      simp [List.takeWhile_cons, List.dropWhile_cons, ht, hrest.1, hrest.2]

/-- C8: when the token sequence contains a top-level colon,
`WhereClauseItem::parse` returns the item whose left side is every token
before the first top-level colon and whose bound pairs that colon with
every token after it; when the sequence has no top-level colon, parsing
fails (the fatal stop of the source, modelled as `none`). -/
theorem whereClauseItem_parse_spec (punct : Punct)
    (before after tokens : List TokenTree) :
    ((∀ t ∈ before, isTopLevelColon t = false) → punct.char = ':' →
      WhereClauseItem.parse (before ++ TokenTree.punct punct :: after) =
        some { left_side := before,
               bound := { tk_colon := punct, tokens := after } })
  ∧ ((∀ t ∈ tokens, isTopLevelColon t = false) →
      WhereClauseItem.parse tokens = none) := by
  constructor
  · intro hb hc
    have hsplit := takeWhile_dropWhile_middle
      (fun t => !isTopLevelColon t) (TokenTree.punct punct)
      (by simp [isTopLevelColon, hc]) before after
      (by intro t htm; simp [hb t htm])
    simp [WhereClauseItem.parse, consume_stuff_until, hsplit.1, hsplit.2, hc]
  · intro h
    have hdrop : tokens.dropWhile (fun t => !isTopLevelColon t) = [] :=
      List.dropWhile_eq_nil_iff.mpr (by intro x hx; simp [h x hx])
    simp [WhereClauseItem.parse, consume_stuff_until, hdrop]

/-- C8, witness: the theorem applied to the token sequence
`T : Debug` (left side `T`, bound `Debug`) and to the colon-free
sequence `T`. -/
theorem whereClauseItem_parse_spec_witness :
    WhereClauseItem.parse
        [TokenTree.ident (Ident.new "T" Span.callSite),
         TokenTree.punct (Punct.new ':' Spacing.alone),
         TokenTree.ident (Ident.new "Debug" Span.callSite)] =
      some { left_side := [TokenTree.ident (Ident.new "T" Span.callSite)],
             bound := { tk_colon := Punct.new ':' Spacing.alone,
                        tokens :=
                          [TokenTree.ident
                            (Ident.new "Debug" Span.callSite)] } } ∧
    WhereClauseItem.parse [TokenTree.ident (Ident.new "T" Span.callSite)] =
      none := by
  constructor
  · have h := (whereClauseItem_parse_spec (Punct.new ':' Spacing.alone)
      [TokenTree.ident (Ident.new "T" Span.callSite)]
      [TokenTree.ident (Ident.new "Debug" Span.callSite)] []).1
    exact h (by intro t htm; fin_cases htm; rfl) rfl
  · have h := (whereClauseItem_parse_spec (Punct.new ':' Spacing.alone) [] []
      [TokenTree.ident (Ident.new "T" Span.callSite)]).2
    exact h (by intro t htm; fin_cases htm; rfl)
